import Mathlib

/-!
Verification of the timeadair Pomodoro timer (src/main.rs) against its
natural-language specification.

The Rust program is a single-threaded terminal countdown timer.  We give a
shallow embedding of its pure core (the `Timer` struct and its derived
computations, the progress-bar fill arithmetic of `draw_progress_bar`), of the
`run_timer` poll/tick/redraw loop (as a recursive function over a stream of
poll results, recording the tick and draw actions it performs), of the same
loop enriched with I/O failures and terminal raw-mode/cursor state (for the
resource-safety analysis), and of the top-level session state machine in
`main`.

Floating point: the Rust `get_progress` computes `elapsed as f32 / duration
as f32 * 100.0`.  We model it over `ℚ`.  At every input the claims touch, the
`f32` computation is exact (`x / x` rounds to exactly `1.0` for any positive
finite `x`; `750.0 / 1500.0 * 100.0` is exactly `50.0`), and the monotonicity
and bound facts proved below are preserved by the monotone round-to-nearest
rounding of each `f32` operation, so the rational model agrees with the
source on everything stated here.
-/

namespace Timeadair

/-- `const WORK_TIME: u64 = 25 * 60;` (src/main.rs line 10). -/
def WORK_TIME : Nat := 25 * 60

/-- `const BREAK_TIME: u64 = 5 * 60;` (src/main.rs line 11). -/
def BREAK_TIME : Nat := 5 * 60

/-- The `Timer` struct: `duration: u64, elapsed: u64` (src/main.rs lines 13-16). -/
structure Timer where
  duration : Nat
  elapsed : Nat
deriving DecidableEq, Repr

/-- `Timer::new(duration)`: constructs with `elapsed = 0` (src/main.rs lines 19-24). -/
def Timer.new (duration : Nat) : Timer :=
  { duration := duration, elapsed := 0 }

/-- The tick performed by the run loop: `timer.elapsed += 1;` (src/main.rs line 102). -/
def Timer.tick (t : Timer) : Timer :=
  { t with elapsed := t.elapsed + 1 }

/-- `Timer::get_progress`: `self.elapsed as f32 / self.duration as f32 * 100.0`
(src/main.rs lines 26-28), modelled over `ℚ` (see the header note on `f32`). -/
def Timer.get_progress (t : Timer) : ℚ :=
  (t.elapsed : ℚ) / (t.duration : ℚ) * 100

/-- Checked subtraction on `u64`: Rust's `a - b` panics when `b > a`; the panic
branch is modelled as `none`. -/
def checkedSub (a b : Nat) : Option Nat :=
  if b ≤ a then some (a - b) else none

/-- The `\x7b:02\x7d` formatting of `format!`: a natural number zero-padded to
at least two decimal digits. -/
def pad2 (n : Nat) : String :=
  if n < 10 then "0" ++ toString n else toString n

/-- The two components computed inside `Timer::format_time`
(src/main.rs lines 31-33): `remaining = duration - elapsed`,
`minutes = remaining / 60`, `seconds = remaining % 60`.  `none` when the
unsigned subtraction would underflow (Rust panic). -/
def Timer.format_parts (t : Timer) : Option (Nat × Nat) :=
  (checkedSub t.duration t.elapsed).map fun remaining =>
    (remaining / 60, remaining % 60)

/-- `Timer::format_time`: `format!("\x7b:02\x7d:\x7b:02\x7d", minutes, seconds)`
(src/main.rs lines 30-35), via `Timer.format_parts`. -/
def Timer.format_time (t : Timer) : Option String :=
  (Timer.format_parts t).map fun p => pad2 p.1 ++ ":" ++ pad2 p.2

/-- The numeric remaining time (in seconds) denoted by a rendered
minutes/seconds pair. -/
def timeVal (p : Nat × Nat) : Nat := p.1 * 60 + p.2

/-- `let width = 50;` in `draw_progress_bar` (src/main.rs line 43). -/
def barWidth : Nat := 50

/-- `let filled = (progress * width as f32 / 100.0) as usize;`
(src/main.rs line 44).  Rust's `f32 as usize` cast truncates toward zero and
saturates below at `0`, which on `ℚ` is `Int.toNat ∘ Int.floor` (the two agree
at every non-negative value, and both give `0` below `0`). -/
def filledCells (progress : ℚ) : Nat :=
  (Int.floor (progress * (barWidth : ℚ) / 100)).toNat

/-- `let empty = width - filled;` (src/main.rs line 45): unsigned `usize`
subtraction.  `Nat` subtraction truncates at `0` where Rust would panic; the
invariant proved below gives `filled ≤ width`, so the two agree on every
reachable input. -/
def emptyCells (progress : ℚ) : Nat :=
  barWidth - filledCells progress

/-- The `TimerResult` enum (src/main.rs lines 74-78). -/
inductive TimerResult
  | Completed
  | Quit
  | Reset
deriving DecidableEq, Repr

/-- The part of crossterm's `KeyCode` the program inspects: `Char(c)` versus
every other key-code variant. -/
inductive KeyCode
  | char ( c : Char)
  | otherKey
deriving DecidableEq, Repr

/-- The part of crossterm's `Event` the program inspects: `Key(KeyEvent)`
versus every non-key event (the `if let` at src/main.rs line 90 falls through
on those). -/
inductive Event
  | key (code : KeyCode)
  | nonKey
deriving DecidableEq, Repr

/-- One poll cycle's observation: `none` when `event::poll` times out with no
event, `some e` when an event is available and read. -/
abbrev PollResult := Option Event

/-- The command decoding performed by the `match code` at src/main.rs lines
91-100, folded together with the poll/`if let` guards: `q`/`Q` break with
`Quit`, `r`/`R` break with `Reset`, everything else (other characters, other
key codes, non-key events, poll timeout) falls through to the tick. -/
def decodeCommand : PollResult → Option TimerResult
  | some (Event.key (KeyCode.char c)) =>
    if c = 'q' ∨ c = 'Q' then some TimerResult.Quit
    else if c = 'r' ∨ c = 'R' then some TimerResult.Reset
    else none
  | _ => none

/-- The observable actions an iteration of the `run_timer` loop performs, in
order: the `timer.elapsed += 1` tick, and the calls to `draw_progress_bar`
(recording the timer state rendered; `fullDraw` is the initial
`first_draw = true` call before the loop, `redraw` the in-loop
`first_draw = false` call). -/
inductive LoopAction
  | tick
  | fullDraw (t : Timer)
  | redraw (t : Timer)
deriving DecidableEq, Repr

/-- The `loop` of `run_timer` (src/main.rs lines 88-107), as a function of
the stream of poll results, iteration `i` consuming `inputs i`.  Each
iteration: decode the poll result; a recognized command breaks immediately
with that outcome (no tick, no redraw); otherwise tick, break `Completed`
when `elapsed >= duration`, and otherwise redraw and continue.  Returns the
outcome, the final timer, and the trace of actions performed. -/
def runLoop (t : Timer) (inputs : Nat → PollResult) (i : Nat) :
    TimerResult × Timer × List LoopAction :=
  match decodeCommand (inputs i) with
  | some r => (r, t, [])
  | none =>
    if h : (t.tick).elapsed ≥ t.duration then
      (TimerResult.Completed, t.tick, [LoopAction.tick])
    else
      let rest := runLoop (t.tick) inputs (i + 1)
      (rest.1, rest.2.1, LoopAction.tick :: LoopAction.redraw (t.tick) :: rest.2.2)
termination_by t.duration - t.elapsed
decreasing_by
  simp [Timer.tick] at h ⊢
  omega

/-- `run_timer` without the terminal-state/error side conditions
(src/main.rs lines 80-107): construct a fresh timer, render the initial
full frame, then run the loop on the input stream. -/
def run_timer (duration : Nat) (inputs : Nat → PollResult) :
    TimerResult × Timer × List LoopAction :=
  let t := Timer.new duration
  let r := runLoop t inputs 0
  (r.1, r.2.1, LoopAction.fullDraw t :: r.2.2)

/-- The timer states passed to `draw_progress_bar` (and hence to
`format_time` and `get_progress`) in a trace of loop actions. -/
def drawnTimers : List LoopAction → List Timer
  | [] => []
  | LoopAction.fullDraw t :: rest => t :: drawnTimers rest
  | LoopAction.redraw t :: rest => t :: drawnTimers rest
  | LoopAction.tick :: rest => drawnTimers rest

/-- The process-wide terminal resources `run_timer` manipulates: whether raw
input mode is enabled (`enable_raw_mode` / `disable_raw_mode`) and whether
the cursor is visible (`cursor::Hide` / `cursor::Show`). -/
structure TermState where
  rawMode : Bool
  cursorVisible : Bool
deriving DecidableEq, Repr

/-- One poll cycle's observation in the error-aware model: `fail` when
`event::poll` or `event::read` returns an I/O error (the `?` propagates it),
`timeout` when the poll returns with no event, `event e` when an event is
read. -/
inductive PollStep
  | fail
  | timeout
  | event (e : Event)
deriving DecidableEq, Repr

/-- Translates a non-failing poll step to the poll result it decodes as. -/
def PollStep.toResult : PollStep → PollResult
  | PollStep.fail => none
  | PollStep.timeout => none
  | PollStep.event e => some e

/-- The `loop` of `run_timer` in the error-aware model: `inputs i` is
iteration `i`'s poll/read outcome, `drawOk i` whether iteration `i`'s
`draw_progress_bar` call succeeds.  An I/O failure is propagated out of the
loop (and out of `run_timer`) by `?` as `Except.error`.  The loop itself
never touches the terminal state, so only the outcome and final timer are
returned. -/
def runLoopE (t : Timer) (inputs : Nat → PollStep) (drawOk : Nat → Bool)
    (i : Nat) : Except Unit (TimerResult × Timer) :=
  match inputs i with
  | PollStep.fail => Except.error ()
  | p =>
    match decodeCommand p.toResult with
    | some r => Except.ok (r, t)
    | none =>
      if h : (t.tick).elapsed ≥ t.duration then
        Except.ok (TimerResult.Completed, t.tick)
      else if drawOk i then
        runLoopE (t.tick) inputs drawOk (i + 1)
      else
        Except.error ()
termination_by t.duration - t.elapsed
decreasing_by
  simp [Timer.tick] at h ⊢
  omega

/-- `run_timer` (src/main.rs lines 80-127) with its terminal-state side
effects and `?` error propagation: enable raw mode, hide the cursor, draw the
initial frame (`drawOk 0`), run the loop (in-loop draws use `drawOk i` for
iteration `i ≥ 1`), and on a normal loop exit show the cursor and disable raw
mode before returning `Ok`.  An `Err` from the initial draw or from the loop
is returned immediately by `?`, leaving the terminal state as it then is. -/
def run_timer_full (duration : Nat) (inputs : Nat → PollStep)
    (drawOk : Nat → Bool) (term0 : TermState) :
    Except Unit TimerResult × TermState :=
  let term1 : TermState := { term0 with rawMode := true }
  let term2 : TermState := { term1 with cursorVisible := false }
  if drawOk 0 then
    match runLoopE (Timer.new duration) inputs drawOk 1 with
    | Except.error () => (Except.error (), term2)
    | Except.ok (r, _) =>
      let term3 : TermState := { term2 with cursorVisible := true }
      let term4 : TermState := { term3 with rawMode := false }
      (Except.ok r, term4)
  else
    (Except.error (), term2)

/-- The phases of the top-level session loop in `main`
(src/main.rs lines 155-178): awaiting the work prompt, running the work
session, awaiting the break prompt, running the break session, and the
loop having been left (`break`). -/
inductive Phase
  | promptWork
  | runWork
  | promptBreak
  | runBreak
  | done
deriving DecidableEq, Repr

/-- What the session loop consumes in each phase: a prompt answer
(`prompt_session` returning true/false) or a `run_timer` outcome. -/
inductive MainInput
  | answer (b : Bool)
  | outcome (r : TimerResult)
deriving DecidableEq, Repr

/-- One transition of `main`'s loop (src/main.rs lines 155-178):
`if !prompt_session("work")? \x7b ...; break; \x7d` declines to `done` and
accepts into the work run; the work `match` sends `Completed` to the break
prompt, `Quit` to `break`, `Reset` to `continue` (back to the work prompt);
`if prompt_session("break")?` accepts into the break run and otherwise falls
to the loop's end (back to the work prompt); the break `match` sends
`Completed` to the loop's end, `Quit` to `break`, `Reset` to `continue`.
An input of the wrong kind for the phase leaves the phase unchanged. -/
def mainStep : Phase → MainInput → Phase
  | Phase.promptWork, MainInput.answer true => Phase.runWork
  | Phase.promptWork, MainInput.answer false => Phase.done
  | Phase.runWork, MainInput.outcome TimerResult.Completed => Phase.promptBreak
  | Phase.runWork, MainInput.outcome TimerResult.Quit => Phase.done
  | Phase.runWork, MainInput.outcome TimerResult.Reset => Phase.promptWork
  | Phase.promptBreak, MainInput.answer true => Phase.runBreak
  | Phase.promptBreak, MainInput.answer false => Phase.promptWork
  | Phase.runBreak, MainInput.outcome TimerResult.Completed => Phase.promptWork
  | Phase.runBreak, MainInput.outcome TimerResult.Quit => Phase.done
  | Phase.runBreak, MainInput.outcome TimerResult.Reset => Phase.promptWork
  | p, _ => p

/-- The timer constructed on entering a phase: `run_timer(WORK_TIME, "Work")`
constructs `Timer::new(WORK_TIME)` and `run_timer(BREAK_TIME, "Break")`
constructs `Timer::new(BREAK_TIME)`; no other phase constructs a timer. -/
def sessionTimer : Phase → Option Timer
  | Phase.runWork => some (Timer.new WORK_TIME)
  | Phase.runBreak => some (Timer.new BREAK_TIME)
  | _ => none

/-! ### Shared lemmas about the loop embedding -/

lemma runLoop_command (t : Timer) (inputs : Nat → PollResult) (i : Nat)
    (r : TimerResult) (h : decodeCommand (inputs i) = some r) :
    runLoop t inputs i = (r, t, []) := by
  rw [runLoop.eq_def, h]

lemma runLoop_tick_complete (t : Timer) (inputs : Nat → PollResult) (i : Nat)
    (h : decodeCommand (inputs i) = none) (h2 : t.duration ≤ t.elapsed + 1) :
    runLoop t inputs i = (TimerResult.Completed, t.tick, [LoopAction.tick]) := by
  rw [runLoop.eq_def, h]
  simp only []
  rw [dif_pos]
  simpa [Timer.tick] using h2

lemma runLoop_tick_step (t : Timer) (inputs : Nat → PollResult) (i : Nat)
    (h : decodeCommand (inputs i) = none) (h2 : t.elapsed + 1 < t.duration) :
    runLoop t inputs i =
      ((runLoop (t.tick) inputs (i + 1)).1, (runLoop (t.tick) inputs (i + 1)).2.1,
        LoopAction.tick :: LoopAction.redraw (t.tick) ::
          (runLoop (t.tick) inputs (i + 1)).2.2) := by
  rw [runLoop.eq_def, h]
  simp only []
  rw [dif_neg]
  simp [Timer.tick]
  omega

lemma tick_iterate (d n : Nat) :
    Timer.tick^[n] (Timer.new d) = ⟨d, n⟩ := by
  induction n with
  | zero => rfl
  | succ n ih => rw [Function.iterate_succ_apply', ih]; rfl

lemma format_time_isSome (t : Timer) (h : t.elapsed ≤ t.duration) :
    (t.format_time).isSome = true := by
  simp [Timer.format_time, Timer.format_parts, checkedSub, h]

/-! ### The claims -/

/-- C8: the fixed constants are work session = 1500 s, break session = 300 s,
bar width = 50 cells; and at `duration = 1500`, `elapsed = 750`,
`get_progress` returns exactly `50` and `format_time` renders `"12:30"`. -/
theorem fixed_constants :
    WORK_TIME = 1500 ∧ BREAK_TIME = 300 ∧ barWidth = 50 ∧
    Timer.get_progress ⟨1500, 750⟩ = 50 ∧
    Timer.format_time ⟨1500, 750⟩ = some "12:30" := by
  refine ⟨rfl, rfl, rfl, ?_, by decide⟩
  show ((750 : Nat) : ℚ) / ((1500 : Nat) : ℚ) * 100 = 50
  norm_num

/-- C4: the session loop's transitions: a work run returning `Completed` goes
to the break prompt; `Quit` from either run terminates; `Reset` from either
run returns to the work prompt, and the next run constructs a fresh
`Timer::new` with `elapsed = 0`; a declined break prompt goes straight back
to the work prompt, a phase that constructs no break timer. -/
theorem session_loop_transitions :
    mainStep Phase.runWork (MainInput.outcome TimerResult.Completed) = Phase.promptBreak ∧
    mainStep Phase.runWork (MainInput.outcome TimerResult.Quit) = Phase.done ∧
    mainStep Phase.runBreak (MainInput.outcome TimerResult.Quit) = Phase.done ∧
    mainStep Phase.runWork (MainInput.outcome TimerResult.Reset) = Phase.promptWork ∧
    mainStep Phase.runBreak (MainInput.outcome TimerResult.Reset) = Phase.promptWork ∧
    (Timer.new WORK_TIME).elapsed = 0 ∧ (Timer.new BREAK_TIME).elapsed = 0 ∧
    sessionTimer Phase.runWork = some (Timer.new WORK_TIME) ∧
    sessionTimer Phase.runBreak = some (Timer.new BREAK_TIME) ∧
    mainStep Phase.promptBreak (MainInput.answer false) = Phase.promptWork ∧
    sessionTimer (mainStep Phase.promptBreak (MainInput.answer false)) = none := by
  decide

/-- C1: for every `duration > 0`, a timer built by `Timer::new(duration)` and
ticked exactly `duration` times reports `get_progress() = 100` and
`format_time() = "00:00"`. -/
theorem timer_completion_display (d : Nat) (hd : 0 < d) :
    (Timer.tick^[d] (Timer.new d)).get_progress = 100 ∧
    (Timer.tick^[d] (Timer.new d)).format_time = some "00:00" := by
  rw [tick_iterate]
  constructor
  · show ((d : Nat) : ℚ) / ((d : Nat) : ℚ) * 100 = 100
    rw [div_self (by exact_mod_cast hd.ne')]
    norm_num
  · simp [Timer.format_time, Timer.format_parts, checkedSub]
    decide

/-- Witness for C1 at `duration = 3`. -/
theorem timer_completion_display_witness :
    0 < 3 ∧
    ((Timer.tick^[3] (Timer.new 3)).get_progress = 100 ∧
      (Timer.tick^[3] (Timer.new 3)).format_time = some "00:00") :=
  ⟨by decide, timer_completion_display 3 (by decide)⟩

/-- C6: for a fixed `duration` and `e1 ≤ e2 ≤ duration`, the remaining time
rendered by `format_time` (the minutes/seconds pair it formats, read as a
time) at `elapsed = e2` is at most the one rendered at `elapsed = e1`. -/
theorem formatted_remaining_monotone (d e1 e2 : Nat) (h1 : e1 ≤ e2) (h2 : e2 ≤ d) :
    ∃ p1 p2 : Nat × Nat,
      Timer.format_parts ⟨d, e1⟩ = some p1 ∧
      Timer.format_parts ⟨d, e2⟩ = some p2 ∧
      Timer.format_time ⟨d, e1⟩ = some (pad2 p1.1 ++ ":" ++ pad2 p1.2) ∧
      Timer.format_time ⟨d, e2⟩ = some (pad2 p2.1 ++ ":" ++ pad2 p2.2) ∧
      timeVal p2 ≤ timeVal p1 := by
  refine ⟨((d - e1) / 60, (d - e1) % 60), ((d - e2) / 60, (d - e2) % 60),
    ?_, ?_, ?_, ?_, ?_⟩
  · simp [Timer.format_parts, checkedSub, le_trans h1 h2]
  · simp [Timer.format_parts, checkedSub, h2]
  · simp [Timer.format_time, Timer.format_parts, checkedSub, le_trans h1 h2]
  · simp [Timer.format_time, Timer.format_parts, checkedSub, h2]
  · simp only [timeVal]
    omega

/-- Witness for C6 at `d = 300`, `e1 = 100`, `e2 = 200`. -/
theorem formatted_remaining_monotone_witness :
    (100 : Nat) ≤ 200 ∧ (200 : Nat) ≤ 300 ∧
    ∃ p1 p2 : Nat × Nat,
      Timer.format_parts ⟨300, 100⟩ = some p1 ∧
      Timer.format_parts ⟨300, 200⟩ = some p2 ∧
      Timer.format_time ⟨300, 100⟩ = some (pad2 p1.1 ++ ":" ++ pad2 p1.2) ∧
      Timer.format_time ⟨300, 200⟩ = some (pad2 p2.1 ++ ":" ++ pad2 p2.2) ∧
      timeVal p2 ≤ timeVal p1 :=
  ⟨by decide, by decide, formatted_remaining_monotone 300 100 200 (by decide) (by decide)⟩

lemma progress_calc (d e : Nat) :
    Timer.get_progress ⟨d, e⟩ * (barWidth : ℚ) / 100 = (e : ℚ) / (d : ℚ) * 50 := by
  have h : Timer.get_progress ⟨d, e⟩ * (barWidth : ℚ) / 100
      = (e : ℚ) / (d : ℚ) * (5000 / 100) := by
    simp only [Timer.get_progress, barWidth]
    push_cast
    ring
  rw [h]
  norm_num

lemma div_cast_le_one (d e : Nat) (he : e ≤ d) : (e : ℚ) / (d : ℚ) ≤ 1 := by
  rcases Nat.eq_zero_or_pos d with hd | hd
  · subst hd
    simp
  · rw [div_le_one (by exact_mod_cast hd)]
    exact_mod_cast he

lemma filled_le_width (d e : Nat) (he : e ≤ d) :
    filledCells (Timer.get_progress ⟨d, e⟩) ≤ barWidth := by
  unfold filledCells
  rw [progress_calc]
  have h1 : (e : ℚ) / (d : ℚ) * 50 ≤ 50 := by
    have := div_cast_le_one d e he
    nlinarith
  have h2 : (Int.floor ((e : ℚ) / (d : ℚ) * 50)) ≤ (50 : ℤ) := by
    calc (Int.floor ((e : ℚ) / (d : ℚ) * 50)) ≤ Int.floor (50 : ℚ) :=
          Int.floor_le_floor h1
      _ = 50 := by norm_num
  calc (Int.floor ((e : ℚ) / (d : ℚ) * 50)).toNat ≤ (50 : ℤ).toNat :=
        Int.toNat_le_toNat h2
    _ = barWidth := by decide

/-- C5: in `draw_progress_bar` with width 50, `filled + empty = 50` holds for
every `elapsed ≤ duration`, and for fixed `duration` the filled-cell count is
monotonically non-decreasing in `elapsed`. -/
theorem progress_bar_cells :
    (∀ d e : Nat, e ≤ d →
      filledCells (Timer.get_progress ⟨d, e⟩) +
        emptyCells (Timer.get_progress ⟨d, e⟩) = barWidth) ∧
    (∀ d e1 e2 : Nat, e1 ≤ e2 → e2 ≤ d →
      filledCells (Timer.get_progress ⟨d, e1⟩) ≤
        filledCells (Timer.get_progress ⟨d, e2⟩)) := by
  constructor
  · intro d e he
    have := filled_le_width d e he
    unfold emptyCells
    omega
  · intro d e1 e2 h1 h2
    unfold filledCells
    rw [progress_calc, progress_calc]
    have hmono : (e1 : ℚ) / (d : ℚ) * 50 ≤ (e2 : ℚ) / (d : ℚ) * 50 := by
      gcongr
    exact Int.toNat_le_toNat (Int.floor_le_floor hmono)

/-- Witness for C5 at `d = 300`, `e = 75`, and the pair `e1 = 75 ≤ e2 = 150`. -/
theorem progress_bar_cells_witness :
    (filledCells (Timer.get_progress ⟨300, 75⟩) +
      emptyCells (Timer.get_progress ⟨300, 75⟩) = barWidth) ∧
    (filledCells (Timer.get_progress ⟨300, 75⟩) ≤
      filledCells (Timer.get_progress ⟨300, 150⟩)) :=
  ⟨progress_bar_cells.1 300 75 (by decide),
   progress_bar_cells.2 300 75 150 (by decide) (by decide)⟩

/-- C7: the loop's input decoding maps `q`/`Q` to `Quit`, `r`/`R` to `Reset`,
and every other key, every non-key event, and a poll timeout to "continue",
in which case the cycle's first action is the tick. -/
theorem key_decoding :
    decodeCommand (some (Event.key (KeyCode.char 'q'))) = some TimerResult.Quit ∧
    decodeCommand (some (Event.key (KeyCode.char 'Q'))) = some TimerResult.Quit ∧
    decodeCommand (some (Event.key (KeyCode.char 'r'))) = some TimerResult.Reset ∧
    decodeCommand (some (Event.key (KeyCode.char 'R'))) = some TimerResult.Reset ∧
    (∀ c : Char, c ≠ 'q' → c ≠ 'Q' → c ≠ 'r' → c ≠ 'R' →
      decodeCommand (some (Event.key (KeyCode.char c))) = none) ∧
    decodeCommand (some (Event.key KeyCode.otherKey)) = none ∧
    decodeCommand (some Event.nonKey) = none ∧
    decodeCommand none = none ∧
    (∀ (t : Timer) (inputs : Nat → PollResult) (i : Nat),
      decodeCommand (inputs i) = none →
      ((runLoop t inputs i).2.2).head? = some LoopAction.tick) := by
  refine ⟨by decide, by decide, by decide, by decide, ?_, by decide, by decide,
    by decide, ?_⟩
  · intro c h1 h2 h3 h4
    simp [decodeCommand, h1, h2, h3, h4]
  · intro t inputs i h
    rcases le_or_lt t.duration (t.elapsed + 1) with h2 | h2
    · rw [runLoop_tick_complete t inputs i h h2]
      rfl
    · rw [runLoop_tick_step t inputs i h h2]
      rfl

/-- Witness for C7 at the key `x`, timer `⟨5, 0⟩`, and the all-timeouts
input stream. -/
theorem key_decoding_witness :
    decodeCommand (some (Event.key (KeyCode.char 'x'))) = none ∧
    ((runLoop ⟨5, 0⟩ (fun _ => none) 0).2.2).head? = some LoopAction.tick :=
  ⟨key_decoding.2.2.2.2.1 'x' (by decide) (by decide) (by decide) (by decide),
   key_decoding.2.2.2.2.2.2.2.2 ⟨5, 0⟩ (fun _ => none) 0 (by decide)⟩

/-- C2: the input check strictly precedes the tick and the redraw.  If the
poll of an iteration decodes to a command, the loop exits with that outcome,
the timer unchanged and no tick or redraw in that cycle; in particular a
`Quit` observed in the very first iteration makes `run_timer` return `Quit`
with `elapsed` still `0` and nothing but the initial full draw performed. -/
theorem input_check_precedes_tick :
    (∀ (t : Timer) (inputs : Nat → PollResult) (i : Nat) (r : TimerResult),
      decodeCommand (inputs i) = some r →
      runLoop t inputs i = (r, t, [])) ∧
    (∀ (d : Nat) (inputs : Nat → PollResult),
      decodeCommand (inputs 0) = some TimerResult.Quit →
      run_timer d inputs =
        (TimerResult.Quit, Timer.new d, [LoopAction.fullDraw (Timer.new d)]) ∧
      (Timer.new d).elapsed = 0) := by
  constructor
  · exact runLoop_command
  · intro d inputs h
    refine ⟨?_, rfl⟩
    simp only [run_timer, runLoop_command (Timer.new d) inputs 0 TimerResult.Quit h]

/-- Witness for C2: a `Reset` key at iteration 0 for the loop, and a `q`
key at iteration 0 for `run_timer 25`. -/
theorem input_check_precedes_tick_witness :
    runLoop (Timer.new 7) (fun _ => some (Event.key (KeyCode.char 'r'))) 0 =
      (TimerResult.Reset, Timer.new 7, []) ∧
    run_timer 25 (fun _ => some (Event.key (KeyCode.char 'q'))) =
      (TimerResult.Quit, Timer.new 25, [LoopAction.fullDraw (Timer.new 25)]) ∧
    (Timer.new 25).elapsed = 0 :=
  ⟨input_check_precedes_tick.1 (Timer.new 7)
      (fun _ => some (Event.key (KeyCode.char 'r'))) 0 TimerResult.Reset (by decide),
   (input_check_precedes_tick.2 25
      (fun _ => some (Event.key (KeyCode.char 'q'))) (by decide)).1,
   (input_check_precedes_tick.2 25
      (fun _ => some (Event.key (KeyCode.char 'q'))) (by decide)).2⟩

/-- C10: invoked with `duration = 0`, the run is not completed immediately:
the first poll cycle happens (here, one that decodes to no command), one tick
is performed, and the loop exits with `Completed` and `elapsed = 1`, which
exceeds the duration; no partial redraw is ever performed in that run. -/
theorem zero_duration_one_cycle (inputs : Nat → PollResult)
    (h : decodeCommand (inputs 0) = none) :
    run_timer 0 inputs =
      (TimerResult.Completed, ⟨0, 1⟩,
        [LoopAction.fullDraw (Timer.new 0), LoopAction.tick]) ∧
    ∀ t' : Timer, LoopAction.redraw t' ∉ (run_timer 0 inputs).2.2 := by
  have hl : runLoop (Timer.new 0) inputs 0 =
      (TimerResult.Completed, (Timer.new 0).tick, [LoopAction.tick]) :=
    runLoop_tick_complete _ _ _ h (by simp [Timer.new])
  constructor
  · simp only [run_timer, hl]
    rfl
  · intro t'
    simp [run_timer, hl]

/-- Witness for C10 with the all-timeouts input stream. -/
theorem zero_duration_one_cycle_witness :
    decodeCommand ((fun _ => (none : PollResult)) 0) = none ∧
    (run_timer 0 (fun _ => none) =
      (TimerResult.Completed, ⟨0, 1⟩,
        [LoopAction.fullDraw (Timer.new 0), LoopAction.tick]) ∧
     ∀ t' : Timer, LoopAction.redraw t' ∉ (run_timer 0 (fun _ => none)).2.2) :=
  ⟨rfl, zero_duration_one_cycle (fun _ => none) rfl⟩

lemma runLoop_drawn_le (t : Timer) (inputs : Nat → PollResult) (i : Nat) :
    ∀ t' ∈ drawnTimers (runLoop t inputs i).2.2, t'.elapsed ≤ t'.duration := by
  induction t, inputs, i using runLoop.induct with
  | case1 t inputs i r h =>
    rw [runLoop_command t inputs i r h]
    simp [drawnTimers]
  | case2 t inputs i h h2 =>
    rw [runLoop_tick_complete t inputs i h (by simpa [Timer.tick] using h2)]
    simp [drawnTimers]
  | case3 t inputs i h h2 ih =>
    rw [runLoop_tick_step t inputs i h (by simpa [Timer.tick] using h2)]
    intro t' ht'
    simp only [drawnTimers] at ht'
    rcases List.mem_cons.mp ht' with h3 | h3
    · subst h3
      simp only [Timer.tick] at h2 ⊢
      omega
    · exact ih t' h3

/-- C9: under `elapsed ≤ duration` the unsigned subtraction in `format_time`
cannot underflow (`format_time` returns a value, never the panic branch), and
every timer state `run_timer` ever passes to `draw_progress_bar` — and hence
to `format_time` — satisfies `elapsed ≤ duration`, so the precondition holds
at every call site of the loop. -/
theorem format_time_total_in_loop :
    (∀ t : Timer, t.elapsed ≤ t.duration → (t.format_time).isSome = true) ∧
    (∀ (d : Nat) (inputs : Nat → PollResult) (t' : Timer),
      t' ∈ drawnTimers (run_timer d inputs).2.2 →
      t'.elapsed ≤ t'.duration ∧ (t'.format_time).isSome = true) := by
  constructor
  · exact format_time_isSome
  · intro d inputs t' ht'
    simp only [run_timer, drawnTimers] at ht'
    have hle : t'.elapsed ≤ t'.duration := by
      rcases List.mem_cons.mp ht' with h3 | h3
      · subst h3
        simp [Timer.new]
      · exact runLoop_drawn_le (Timer.new d) inputs 0 t' h3
    exact ⟨hle, format_time_isSome t' hle⟩

/-- Witness for C9 at the timer `⟨300, 299⟩` and the duration-1 run on the
all-timeouts stream, whose only drawn state is `⟨1, 0⟩`. -/
theorem format_time_total_in_loop_witness :
    ((⟨300, 299⟩ : Timer).format_time).isSome = true ∧
    ((⟨1, 0⟩ : Timer).elapsed ≤ (⟨1, 0⟩ : Timer).duration ∧
      ((⟨1, 0⟩ : Timer).format_time).isSome = true) :=
  ⟨format_time_total_in_loop.1 ⟨300, 299⟩ (by decide),
   format_time_total_in_loop.2 1 (fun _ => none) ⟨1, 0⟩ (by
    have hl : runLoop (Timer.new 1) (fun _ => none) 0 =
        (TimerResult.Completed, (Timer.new 1).tick, [LoopAction.tick]) :=
      runLoop_tick_complete _ _ _ rfl (by simp [Timer.new])
    simp [run_timer, hl, drawnTimers, Timer.new])⟩

/-- C3 counterexample: `run_timer` does not restore the terminal on error
exits.  With duration 10, a failing poll in the very first loop iteration,
all draws succeeding, and an initial terminal state of raw mode off / cursor
visible, `run_timer` returns `Err` with raw mode still enabled and the
cursor still hidden. -/
theorem run_timer_error_exit_no_restore :
    (run_timer_full 10 (fun _ => PollStep.fail) (fun _ => true) ⟨false, true⟩).1
      = Except.error () ∧
    (run_timer_full 10 (fun _ => PollStep.fail) (fun _ => true) ⟨false, true⟩).2
      = ⟨true, false⟩ ∧
    (run_timer_full 10 (fun _ => PollStep.fail) (fun _ => true) ⟨false, true⟩).2.rawMode
      = true := by
  have hl : runLoopE (Timer.new 10) (fun _ => PollStep.fail) (fun _ => true) 1 =
      Except.error () := by
    rw [runLoopE.eq_def]
  refine ⟨?_, ?_, ?_⟩ <;> simp [run_timer_full, hl]

/-- C3 amended: `run_timer` restores the terminal on every successful exit
path — whenever it returns `Ok` (`Completed`, `Quit`, or `Reset`), raw mode
has been disabled and the cursor made visible — but not on `Err` exits
propagated from polling, reading, or drawing. -/
theorem run_timer_ok_exit_restores (d : Nat) (inputs : Nat → PollStep)
    (drawOk : Nat → Bool) (term0 : TermState) (r : TimerResult)
    (term : TermState)
    (h : run_timer_full d inputs drawOk term0 = (Except.ok r, term)) :
    term.rawMode = false ∧ term.cursorVisible = true := by
  simp only [run_timer_full] at h
  by_cases hd : drawOk 0
  · rw [if_pos hd] at h
    rcases hE : runLoopE (Timer.new d) inputs drawOk 1 with u | ⟨r', t'⟩
    · rw [hE] at h
      simp at h
    · rw [hE] at h
      simp only [Prod.mk.injEq] at h
      rw [← h.2]
      exact ⟨rfl, rfl⟩
  · rw [if_neg hd] at h
    simp at h

/-- Witness for the amended C3: a duration-1 run on all-timeouts input with
all draws succeeding returns `Ok Completed` with raw mode off and the cursor
visible. -/
theorem run_timer_ok_exit_restores_witness :
    run_timer_full 1 (fun _ => PollStep.timeout) (fun _ => true) ⟨false, true⟩ =
      (Except.ok TimerResult.Completed, ⟨false, true⟩) ∧
    ((⟨false, true⟩ : TermState).rawMode = false ∧
      (⟨false, true⟩ : TermState).cursorVisible = true) := by
  have hl : runLoopE (Timer.new 1) (fun _ => PollStep.timeout) (fun _ => true) 1 =
      Except.ok (TimerResult.Completed, (Timer.new 1).tick) := by
    rw [runLoopE.eq_def]
    norm_num [PollStep.toResult, decodeCommand, Timer.new, Timer.tick]
  have h : run_timer_full 1 (fun _ => PollStep.timeout) (fun _ => true) ⟨false, true⟩ =
      (Except.ok TimerResult.Completed, ⟨false, true⟩) := by
    simp [run_timer_full, hl]
  exact ⟨h, run_timer_ok_exit_restores 1 (fun _ => PollStep.timeout) (fun _ => true)
    ⟨false, true⟩ TimerResult.Completed ⟨false, true⟩ h⟩

end Timeadair
